import Mathlib

/-!
# The URL-shortening form of shareoxide: `src/routes/dash/shorten.js`

The file registers one `submit` listener on the form `shorten-form`.  The listener
suppresses the default action, reads and trims two text inputs, and either shows a
validation alert or posts a JSON body to `/api/link`, reloading the page on an ok
response and logging and alerting on any failure.

The embedding below follows the listener statement by statement.

* JavaScript strings are sequences of UTF-16 code units (`JSString`).
* The built-ins the listener calls (`String.prototype.trim`, `JSON.stringify`) are
  embedded after their definitions in ECMA-262; `fetch` is a parameter of the page:
  it settles with a response or rejects with an error.
* Effects are recorded as a list of `Action`s in program order, through the
  computation type `JS`, which also carries a thrown error (`throw`, `try`/`catch`).
* `decodeJSON` is a JSON text decoder (ECMA-404 without number literals), used to
  state what a receiver reads from a request body.
-/

namespace Shorten

/-! ## Strings -/

/-- A UTF-16 code unit. -/
abbrev CodeUnit := Fin 65536

/-- A JavaScript string value: a finite sequence of UTF-16 code units. -/
abbrev JSString := List CodeUnit

/-- The UTF-16 encoding of one Unicode scalar value. -/
def utf16EncodeCodePoint (c : Char) : JSString :=
  if c.toNat < 0x10000 then [Fin.ofNat c.toNat]
  else [Fin.ofNat (0xD800 + (c.toNat - 0x10000) / 0x400),
        Fin.ofNat (0xDC00 + (c.toNat - 0x10000) % 0x400)]

/-- The JavaScript string denoted by a string literal of the source. -/
def JSString.ofString (s : String) : JSString :=
  s.toList.flatMap utf16EncodeCodePoint

/-- ECMA-262 `WhiteSpace` and `LineTerminator` code points: what `trim` strips.
`WhiteSpace` is TAB, VT, FF, ZWNBSP and every code point of category Zs
(SP, NBSP, U+1680, U+2000 to U+200A, U+202F, U+205F, U+3000); `LineTerminator` is
LF, CR, LS, PS. -/
def isWhiteSpace (c : CodeUnit) : Bool :=
  c.val = 0x0009 || c.val = 0x000B || c.val = 0x000C || c.val = 0xFEFF ||
  c.val = 0x0020 || c.val = 0x00A0 || c.val = 0x1680 ||
  (0x2000 ≤ c.val && c.val ≤ 0x200A) ||
  c.val = 0x202F || c.val = 0x205F || c.val = 0x3000 ||
  c.val = 0x000A || c.val = 0x000D || c.val = 0x2028 || c.val = 0x2029

/-- `String.prototype.trimStart`: drop the leading white space. -/
def trimStart (s : JSString) : JSString :=
  s.dropWhile isWhiteSpace

/-- `String.prototype.trimEnd`: drop the trailing white space. -/
def trimEnd (s : JSString) : JSString :=
  (s.reverse.dropWhile isWhiteSpace).reverse

/-- `String.prototype.trim`: drop white space at both ends (ECMA-262 `TrimString`
with `start+end`). -/
def trim (s : JSString) : JSString :=
  trimEnd (trimStart s)

/-! ## JSON values and `JSON.stringify` -/

/-- The JavaScript values the listener serialises: `null`, booleans, strings, arrays
and plain objects (own enumerable string-keyed properties in creation order). -/
inductive JSONValue where
  | null : JSONValue
  | bool (b : Bool) : JSONValue
  | str (s : JSString) : JSONValue
  | arr (xs : List JSONValue) : JSONValue
  | obj (kvs : List (JSString × JSONValue)) : JSONValue

/-- A leading (high) surrogate code unit. -/
def isLeadingSurrogate (c : CodeUnit) : Bool :=
  0xD800 ≤ c.val && c.val ≤ 0xDBFF

/-- A trailing (low) surrogate code unit. -/
def isTrailingSurrogate (c : CodeUnit) : Bool :=
  0xDC00 ≤ c.val && c.val ≤ 0xDFFF

/-- The lowercase hexadecimal digit of a value below 16. -/
def hexDigit (d : Nat) : CodeUnit :=
  if d < 10 then Fin.ofNat (0x30 + d) else Fin.ofNat (0x61 + (d - 10))

/-- ECMA-262 `UnicodeEscape`: a backslash, `u`, and four lowercase hex digits. -/
def unicodeEscape (c : CodeUnit) : JSString :=
  [0x5C, 0x75, hexDigit (c.val / 4096), hexDigit (c.val / 256 % 16),
    hexDigit (c.val / 16 % 16), hexDigit (c.val % 16)]

/-- The body of ECMA-262 `QuoteJSONString`, over code units: the seven
single-character escapes, `UnicodeEscape` for the other control characters and for
unpaired surrogates, and everything else (surrogate pairs included) verbatim. -/
def quoteJSONChars : JSString → JSString
  | [] => []
  | c :: rest =>
    if c = 0x08 then [0x5C, 0x62] ++ quoteJSONChars rest
    else if c = 0x09 then [0x5C, 0x74] ++ quoteJSONChars rest
    else if c = 0x0A then [0x5C, 0x6E] ++ quoteJSONChars rest
    else if c = 0x0C then [0x5C, 0x66] ++ quoteJSONChars rest
    else if c = 0x0D then [0x5C, 0x72] ++ quoteJSONChars rest
    else if c = 0x22 then [0x5C, 0x22] ++ quoteJSONChars rest
    else if c = 0x5C then [0x5C, 0x5C] ++ quoteJSONChars rest
    else if c.val < 0x20 then unicodeEscape c ++ quoteJSONChars rest
    else if isLeadingSurrogate c then
      match rest with
      | [] => unicodeEscape c
      | d :: rest2 =>
        if isTrailingSurrogate d then c :: d :: quoteJSONChars rest2
        else unicodeEscape c ++ quoteJSONChars (d :: rest2)
    else if isTrailingSurrogate c then unicodeEscape c ++ quoteJSONChars rest
    else c :: quoteJSONChars rest

/-- ECMA-262 `QuoteJSONString`. -/
def quoteJSONString (s : JSString) : JSString :=
  [0x22] ++ quoteJSONChars s ++ [0x22]

mutual
/-- `JSON.stringify(value)` with no replacer and no indentation (ECMA-262
`SerializeJSONProperty`, `SerializeJSONArray`, `SerializeJSONObject` with an
empty gap). -/
def JSON.stringify : JSONValue → JSString
  | .null => JSString.ofString "null"
  | .bool true => JSString.ofString "true"
  | .bool false => JSString.ofString "false"
  | .str s => quoteJSONString s
  | .arr xs => [0x5B] ++ JSON.stringifyElements xs ++ [0x5D]
  | .obj kvs => [0x7B] ++ JSON.stringifyMembers kvs ++ [0x7D]
/-- The elements of an array, separated by commas. -/
def JSON.stringifyElements : List JSONValue → JSString
  | [] => []
  | [x] => JSON.stringify x
  | x :: y :: xs => JSON.stringify x ++ [0x2C] ++ JSON.stringifyElements (y :: xs)
/-- The members of an object, `key:value`, separated by commas. -/
def JSON.stringifyMembers : List (JSString × JSONValue) → JSString
  | [] => []
  | [(k, x)] => quoteJSONString k ++ [0x3A] ++ JSON.stringify x
  | (k, x) :: y :: kvs =>
    quoteJSONString k ++ [0x3A] ++ JSON.stringify x ++ [0x2C] ++
      JSON.stringifyMembers (y :: kvs)
end

/-! ## Decoding JSON text -/

/-- The value of a hexadecimal digit, in either case. -/
def hexValue (c : CodeUnit) : Option Nat :=
  if 0x30 ≤ c.val ∧ c.val ≤ 0x39 then some (c.val - 0x30)
  else if 0x61 ≤ c.val ∧ c.val ≤ 0x66 then some (c.val - 0x61 + 10)
  else if 0x41 ≤ c.val ∧ c.val ≤ 0x46 then some (c.val - 0x41 + 10)
  else none

/-- The code unit written by the four hexadecimal digits of a `\u` escape. -/
def decodeHex4 (a b c d : CodeUnit) : Option CodeUnit :=
  match hexValue a, hexValue b, hexValue c, hexValue d with
  | some x, some y, some z, some w => some (Fin.ofNat (((x * 16 + y) * 16 + z) * 16 + w))
  | _, _, _, _ => none

/-- Put a decoded code unit in front of the remainder of a decoded string. -/
def pushUnit (c : CodeUnit) (r : Option (JSString × JSString)) : Option (JSString × JSString) :=
  r.map fun p => (c :: p.1, p.2)

/-- Decode the characters of a JSON string literal after its opening quote, up to
and including the closing quote: the string value and the text that follows.
Control characters must be escaped; the escapes are the eight two-character
ones and `\u` with four hexadecimal digits. -/
def decodeChars : JSString → Option (JSString × JSString)
  | [] => none
  | c :: rest =>
    if c = 0x22 then some ([], rest)
    else if c = 0x5C then
      match rest with
      | [] => none
      | e :: rest2 =>
        if e = 0x22 then pushUnit 0x22 (decodeChars rest2)
        else if e = 0x5C then pushUnit 0x5C (decodeChars rest2)
        else if e = 0x2F then pushUnit 0x2F (decodeChars rest2)
        else if e = 0x62 then pushUnit 0x08 (decodeChars rest2)
        else if e = 0x66 then pushUnit 0x0C (decodeChars rest2)
        else if e = 0x6E then pushUnit 0x0A (decodeChars rest2)
        else if e = 0x72 then pushUnit 0x0D (decodeChars rest2)
        else if e = 0x74 then pushUnit 0x09 (decodeChars rest2)
        else if e = 0x75 then
          match rest2 with
          | h1 :: h2 :: h3 :: h4 :: rest3 =>
            match decodeHex4 h1 h2 h3 h4 with
            | some u => pushUnit u (decodeChars rest3)
            | none => none
          | _ => none
        else none
    else if c.val < 0x20 then none
    else pushUnit c (decodeChars rest)

/-- JSON insignificant white space: space, tab, line feed, carriage return. -/
def isJSONWhitespace (c : CodeUnit) : Bool :=
  c = 0x20 || c = 0x09 || c = 0x0A || c = 0x0D

/-- Skip insignificant white space. -/
def skipWhitespace : JSString → JSString
  | [] => []
  | c :: rest => if isJSONWhitespace c then skipWhitespace rest else c :: rest

/-- Consume the given literal text. -/
def expect : JSString → JSString → Option JSString
  | [], s => some s
  | _ :: _, [] => none
  | p :: ps, c :: rest => if p = c then expect ps rest else none

mutual
/-- Decode one JSON value from the front of a text: the value and the text that
follows it.  The first argument bounds the depth of the recursion. -/
def decodeValue : Nat → JSString → Option (JSONValue × JSString)
  | 0, _ => none
  | fuel + 1, s =>
    match skipWhitespace s with
    | [] => none
    | c :: rest =>
      if c = 0x22 then
        (decodeChars rest).map fun p => (.str p.1, p.2)
      else if c = 0x5B then
        match skipWhitespace rest with
        | [] => none
        | d :: rest2 =>
          if d = 0x5D then some (.arr [], rest2)
          else (decodeElements fuel (d :: rest2)).map fun p => (.arr p.1, p.2)
      else if c = 0x7B then
        match skipWhitespace rest with
        | [] => none
        | d :: rest2 =>
          if d = 0x7D then some (.obj [], rest2)
          else (decodeMembers fuel (d :: rest2)).map fun p => (.obj p.1, p.2)
      else if c = 0x6E then
        (expect (JSString.ofString "ull") rest).map fun r => (.null, r)
      else if c = 0x74 then
        (expect (JSString.ofString "rue") rest).map fun r => (.bool true, r)
      else if c = 0x66 then
        (expect (JSString.ofString "alse") rest).map fun r => (.bool false, r)
      else none
/-- Decode the elements of a non-empty array, up to and including the closing
bracket. -/
def decodeElements : Nat → JSString → Option (List JSONValue × JSString)
  | 0, _ => none
  | fuel + 1, s =>
    match decodeValue fuel s with
    | none => none
    | some (x, r) =>
      match skipWhitespace r with
      | [] => none
      | c :: rest =>
        if c = 0x2C then (decodeElements fuel rest).map fun p => (x :: p.1, p.2)
        else if c = 0x5D then some ([x], rest)
        else none
/-- Decode the members of a non-empty object, up to and including the closing
brace. -/
def decodeMembers : Nat → JSString → Option (List (JSString × JSONValue) × JSString)
  | 0, _ => none
  | fuel + 1, s =>
    match skipWhitespace s with
    | [] => none
    | q :: afterQuote =>
      if q = 0x22 then
        match decodeChars afterQuote with
        | none => none
        | some (k, r) =>
          match skipWhitespace r with
          | [] => none
          | colon :: afterColon =>
            if colon = 0x3A then
              match decodeValue fuel afterColon with
              | none => none
              | some (x, r2) =>
                match skipWhitespace r2 with
                | [] => none
                | c :: rest =>
                  if c = 0x2C then
                    (decodeMembers fuel rest).map fun p => ((k, x) :: p.1, p.2)
                  else if c = 0x7D then some ([(k, x)], rest)
                  else none
            else none
      else none
end

/-- Decode a complete JSON text: one value, with nothing but white space after
it.  Number literals are not part of the decoded fragment. -/
def decodeJSON (s : JSString) : Option JSONValue :=
  match decodeValue (2 * s.length + 2) s with
  | none => none
  | some (v, rest) => if skipWhitespace rest = [] then some v else none

/-- The value of the property `key` of a decoded object. -/
def JSONValue.field (key : JSString) : JSONValue → Option JSONValue
  | .obj kvs => (kvs.find? fun kv => kv.1 = key).map Prod.snd
  | _ => none

/-! ## The browser interface -/

/-- An error value: `new Error(message)` has name `Error`; a rejected `fetch`
carries whatever the network stack raised (a `TypeError` in browsers). -/
structure JSError where
  name : String
  message : String
  deriving DecidableEq

/-- The expression `new Error(message)`. -/
def JSError.Error (message : String) : JSError :=
  ⟨"Error", message⟩

/-- The second argument of `fetch`, with the resource it is sent to. -/
structure Request where
  url : String
  method : String
  headers : List (String × String)
  body : JSString
  deriving DecidableEq

/-- A `Response`; only its status is inspected. -/
structure Response where
  status : Nat
  deriving DecidableEq

/-- The getter `response.ok`: the status is in the range 200 to 299. -/
def Response.ok (r : Response) : Bool :=
  200 ≤ r.status && r.status ≤ 299

/-- How the promise returned by `fetch` settles. -/
inductive FetchOutcome where
  | resolved (response : Response) : FetchOutcome
  | rejected (error : JSError) : FetchOutcome
  deriving DecidableEq

/-- What the listener observes of its surroundings: the values of the two text
inputs of the form, and how the endpoint answers a request. -/
structure Page where
  linkInput : JSString
  shortlinkInput : JSString
  endpoint : Request → FetchOutcome

/-- The observable effects of the listener, one constructor per call it makes. -/
inductive Action where
  | preventDefault : Action
  | getValue (id : String) : Action
  | alert (message : String) : Action
  | fetch (request : Request) : Action
  | consoleError (label : String) (error : JSError) : Action
  | reload : Action
  deriving DecidableEq

/-- A computation of the listener: the actions it performed, in order, and either
its value or the error it threw. -/
structure JS (α : Type) where
  actions : List Action
  result : Except JSError α

instance : Monad JS where
  pure a := ⟨[], .ok a⟩
  bind x f :=
    match x.result with
    | .error e => ⟨x.actions, .error e⟩
    | .ok a => ⟨x.actions ++ (f a).actions, (f a).result⟩

instance : MonadExcept JSError JS where
  throw e := ⟨[], .error e⟩
  tryCatch x handle :=
    match x.result with
    | .ok a => ⟨x.actions, .ok a⟩
    | .error e => ⟨x.actions ++ (handle e).actions, (handle e).result⟩

/-- The call `event.preventDefault()`. -/
def preventDefault : JS Unit :=
  ⟨[.preventDefault], .ok ()⟩

/-- The expression `document.getElementById(id).value`.  The page holds the two
inputs of the form; for any other id `getElementById` gives `null` and reading
`.value` throws a `TypeError`. -/
def getValue (page : Page) (id : String) : JS JSString :=
  if id = "link-input" then ⟨[.getValue id], .ok page.linkInput⟩
  else if id = "shortlink-input" then ⟨[.getValue id], .ok page.shortlinkInput⟩
  else ⟨[.getValue id], .error ⟨"TypeError", "Cannot read properties of null"⟩⟩

/-- The call `alert(message)`. -/
def alert (message : String) : JS Unit :=
  ⟨[.alert message], .ok ()⟩

/-- The expression `await fetch(url, init)`: the request goes out, and the await
gives the response or throws the rejection. -/
def fetch (page : Page) (request : Request) : JS Response :=
  match page.endpoint request with
  | .resolved response => ⟨[.fetch request], .ok response⟩
  | .rejected error => ⟨[.fetch request], .error error⟩

/-- The call `console.error(label, error)`. -/
def consoleError (label : String) (error : JSError) : JS Unit :=
  ⟨[.consoleError label error], .ok ()⟩

/-- The call `window.location.reload()`. -/
def reload : JS Unit :=
  ⟨[.reload], .ok ()⟩

/-! ## The listener -/

/-- The object literal `{ url: link, shortcuts }`. -/
def shortenRequest (link : JSString) (shortcuts : JSONValue) : JSONValue :=
  .obj [(JSString.ofString "url", .str link), (JSString.ofString "shortcuts", shortcuts)]

/-- The `submit` listener of `shorten-form` (lines 3 to 34 of `shorten.js`). -/
def submitHandler (page : Page) : JS Unit := do
  preventDefault
  let link := trim (← getValue page "link-input")
  let shortlink := trim (← getValue page "shortlink-input")
  let shortcuts := if shortlink ≠ [] then JSONValue.arr [.str shortlink] else JSONValue.null
  if link = [] then
    alert "Please enter a URL to shorten."
    return
  try
    let response ← fetch page
      ⟨"/api/link", "POST", [("Content-Type", "application/json")],
        JSON.stringify (shortenRequest link shortcuts)⟩
    if !response.ok then
      throw (JSError.Error "Failed to shorten URL")
    reload
  catch error =>
    consoleError "Error:" error
    alert "An error occurred while shortening the URL. Please try again."

/-! ## Vocabulary of the statements -/

/-- The request the listener builds from the two input values: the arguments of
the `fetch` call on lines 17 to 23. -/
def theRequest (page : Page) : Request :=
  ⟨"/api/link", "POST", [("Content-Type", "application/json")],
    JSON.stringify (shortenRequest (trim page.linkInput)
      (if trim page.shortlinkInput ≠ [] then .arr [.str (trim page.shortlinkInput)] else .null))⟩

/-- The network requests of a trace, in order. -/
def requests (t : List Action) : List Request :=
  t.filterMap fun a =>
    match a with
    | .fetch request => some request
    | _ => none

/-- The same action, with `e` as the error handed to `console.error`. -/
def Action.withError (e : JSError) : Action → Action
  | .consoleError label _ => .consoleError label e
  | a => a

/-- The trace contains a page reload. -/
def Reloads (t : List Action) : Prop :=
  Action.reload ∈ t

/-- The trace contains some part of the failure report: a `console.error` call or
the error alert. -/
def ReportsFailure (t : List Action) : Prop :=
  (∃ label e, Action.consoleError label e ∈ t) ∨
    Action.alert "An error occurred while shortening the URL. Please try again." ∈ t

/-- The trace contains the validation alert. -/
def ShowsValidation (t : List Action) : Prop :=
  Action.alert "Please enter a URL to shorten." ∈ t

/-- A page with the given input values, whose endpoint settles every request the
same way. -/
def samplePage (link shortlink : String) (outcome : FetchOutcome) : Page :=
  ⟨JSString.ofString link, JSString.ofString shortlink, fun _ => outcome⟩

/-! ## Trimming -/

theorem trim_eq (s : JSString) :
    trim s = List.rdropWhile isWhiteSpace (List.dropWhile isWhiteSpace s) := rfl

theorem trim_eq_nil_iff (s : JSString) : trim s = [] ↔ ∀ c ∈ s, isWhiteSpace c = true := by
  rw [trim_eq, List.rdropWhile_eq_nil_iff]
  constructor
  · intro h
    have h2 : List.dropWhile isWhiteSpace (List.dropWhile isWhiteSpace s) = [] :=
      List.dropWhile_eq_nil_iff.mpr h
    rw [List.dropWhile_idempotent] at h2
    exact List.dropWhile_eq_nil_iff.mp h2
  · intro h
    rw [List.dropWhile_eq_nil_iff.mpr h]
    simp

theorem trim_head_not_whiteSpace (s : JSString) (c : CodeUnit)
    (h : (trim s).head? = some c) : isWhiteSpace c = false := by
  obtain ⟨t, ht⟩ := List.head?_eq_some_iff.mp h
  obtain ⟨u, hu⟩ : trim s <+: List.dropWhile isWhiteSpace s := List.rdropWhile_prefix _ _
  have h2 := List.head?_dropWhile_not isWhiteSpace s
  rw [← hu, ht] at h2
  simpa using h2

theorem trim_last_not_whiteSpace (s : JSString) (c : CodeUnit)
    (h : (trim s).getLast? = some c) : isWhiteSpace c = false := by
  have hne : List.rdropWhile isWhiteSpace (List.dropWhile isWhiteSpace s) ≠ [] := by
    intro h0
    rw [trim_eq, h0] at h
    simp at h
  have h2 := List.rdropWhile_last_not isWhiteSpace _ hne
  rw [trim_eq, List.getLast?_eq_getLast _ hne] at h
  simp only [Option.some.injEq] at h
  rw [h] at h2
  simpa using h2

theorem trim_trim (s : JSString) : trim (trim s) = trim s := by
  have h1 : List.dropWhile isWhiteSpace (trim s) = trim s := by
    rw [List.dropWhile_eq_self_iff]
    intro hl
    have hh : ∀ (l : JSString) (h0 : 0 < l.length), l.head? = some (l.get ⟨0, h0⟩) := by
      intro l h0
      cases l with
      | nil => simp at h0
      | cons a t => simp
    have := trim_head_not_whiteSpace s _ (hh _ hl)
    simpa using this
  conv_lhs => rw [trim_eq, h1, trim_eq, List.rdropWhile_idempotent]
  rfl

theorem trim_decompose (s : JSString) :
    s = List.takeWhile isWhiteSpace s ++ trim s ++
      List.rtakeWhile isWhiteSpace (List.dropWhile isWhiteSpace s) := by
  have h : ∀ l : JSString, List.rdropWhile isWhiteSpace l ++ List.rtakeWhile isWhiteSpace l = l := by
    intro l
    rw [List.rdropWhile, List.rtakeWhile, ← List.reverse_append, List.takeWhile_append_dropWhile,
      List.reverse_reverse]
  rw [List.append_assoc, trim_eq, h, List.takeWhile_append_dropWhile]


/-! ## Decoding what `JSON.stringify` wrote -/

theorem quoteJSONChars_cons (c : CodeUnit) (rest : JSString) :
    quoteJSONChars (c :: rest) =
    if c = 0x08 then [0x5C, 0x62] ++ quoteJSONChars rest
    else if c = 0x09 then [0x5C, 0x74] ++ quoteJSONChars rest
    else if c = 0x0A then [0x5C, 0x6E] ++ quoteJSONChars rest
    else if c = 0x0C then [0x5C, 0x66] ++ quoteJSONChars rest
    else if c = 0x0D then [0x5C, 0x72] ++ quoteJSONChars rest
    else if c = 0x22 then [0x5C, 0x22] ++ quoteJSONChars rest
    else if c = 0x5C then [0x5C, 0x5C] ++ quoteJSONChars rest
    else if c.val < 0x20 then unicodeEscape c ++ quoteJSONChars rest
    else if isLeadingSurrogate c then
      match rest with
      | [] => unicodeEscape c
      | d :: rest2 =>
        if isTrailingSurrogate d then c :: d :: quoteJSONChars rest2
        else unicodeEscape c ++ quoteJSONChars (d :: rest2)
    else if isTrailingSurrogate c then unicodeEscape c ++ quoteJSONChars rest
    else c :: quoteJSONChars rest := by
  rw [quoteJSONChars.eq_def]; rfl

theorem decodeChars_cons (c : CodeUnit) (rest : JSString) :
    decodeChars (c :: rest) =
    if c = 0x22 then some ([], rest)
    else if c = 0x5C then
      match rest with
      | [] => none
      | e :: rest2 =>
        if e = 0x22 then pushUnit 0x22 (decodeChars rest2)
        else if e = 0x5C then pushUnit 0x5C (decodeChars rest2)
        else if e = 0x2F then pushUnit 0x2F (decodeChars rest2)
        else if e = 0x62 then pushUnit 0x08 (decodeChars rest2)
        else if e = 0x66 then pushUnit 0x0C (decodeChars rest2)
        else if e = 0x6E then pushUnit 0x0A (decodeChars rest2)
        else if e = 0x72 then pushUnit 0x0D (decodeChars rest2)
        else if e = 0x74 then pushUnit 0x09 (decodeChars rest2)
        else if e = 0x75 then
          match rest2 with
          | h1 :: h2 :: h3 :: h4 :: rest3 =>
            match decodeHex4 h1 h2 h3 h4 with
            | some u => pushUnit u (decodeChars rest3)
            | none => none
          | _ => none
        else none
    else if c.val < 0x20 then none
    else pushUnit c (decodeChars rest) := by
  rw [decodeChars.eq_def]; rfl

theorem hexValue_hexDigit (d : Nat) (h : d < 16) : hexValue (hexDigit d) = some d := by
  interval_cases d <;> rfl

theorem decodeHex4_unicodeDigits (c : CodeUnit) :
    decodeHex4 (hexDigit (c.val / 4096)) (hexDigit (c.val / 256 % 16))
      (hexDigit (c.val / 16 % 16)) (hexDigit (c.val % 16)) = some c := by
  have hc := c.isLt
  have h1 : c.val / 4096 < 16 := by omega
  have h2 : c.val / 256 % 16 < 16 := by omega
  have h3 : c.val / 16 % 16 < 16 := by omega
  have h4 : c.val % 16 < 16 := by omega
  simp only [decodeHex4, hexValue_hexDigit _ h1, hexValue_hexDigit _ h2,
    hexValue_hexDigit _ h3, hexValue_hexDigit _ h4]
  have : ((c.val / 4096 * 16 + c.val / 256 % 16) * 16 + c.val / 16 % 16) * 16 + c.val % 16
      = c.val := by omega
  rw [this]
  simp only [Fin.ofNat, Option.some.injEq]
  apply Fin.ext
  exact Nat.mod_eq_of_lt hc

theorem decodeChars_unicodeEscape (c : CodeUnit) (t : JSString) :
    decodeChars (unicodeEscape c ++ t) = pushUnit c (decodeChars t) := by
  simp [unicodeEscape, decodeChars_cons, decodeHex4_unicodeDigits]

theorem decodeChars_quoteJSONChars (s rest : JSString) :
    decodeChars (quoteJSONChars s ++ 0x22 :: rest) = some (s, rest) := by
  induction s using quoteJSONChars.induct with
  | case1 => simp [quoteJSONChars, decodeChars_cons]
  | case2 r ih => simp [quoteJSONChars_cons, decodeChars_cons, ih, pushUnit]
  | case3 r _ ih => simp [quoteJSONChars_cons, decodeChars_cons, ih, pushUnit]
  | case4 r _ _ ih => simp [quoteJSONChars_cons, decodeChars_cons, ih, pushUnit]
  | case5 r _ _ _ ih => simp [quoteJSONChars_cons, decodeChars_cons, ih, pushUnit]
  | case6 r _ _ _ _ ih => simp [quoteJSONChars_cons, decodeChars_cons, ih, pushUnit]
  | case7 r _ _ _ _ _ ih => simp [quoteJSONChars_cons, decodeChars_cons, ih, pushUnit]
  | case8 r _ _ _ _ _ _ ih => simp [quoteJSONChars_cons, decodeChars_cons, ih, pushUnit]
  | case9 c r h1 h2 h3 h4 h5 h6 h7 h8 ih =>
    simp [quoteJSONChars_cons, h1, h2, h3, h4, h5, h6, h7, h8, decodeChars_unicodeEscape, ih, pushUnit]
  | case10 c h1 h2 h3 h4 h5 h6 h7 h8 h9 =>
    simp [quoteJSONChars_cons, h1, h2, h3, h4, h5, h6, h7, h8, h9, decodeChars_unicodeEscape, pushUnit, decodeChars_cons]
  | case11 c h1 h2 h3 h4 h5 h6 h7 h8 h9 d r hd ih =>
    have hd1 : d ≠ 0x22 := by intro h; rw [h] at hd; exact absurd hd (by decide)
    have hd2 : d ≠ 0x5C := by intro h; rw [h] at hd; exact absurd hd (by decide)
    have hd3 : ¬ d.val < 0x20 := by simp [isTrailingSurrogate] at hd; omega
    simp [quoteJSONChars_cons, h1, h2, h3, h4, h5, h6, h7, h8, h9, hd, decodeChars_cons, hd1, hd2, hd3, ih, pushUnit]
  | case12 c h1 h2 h3 h4 h5 h6 h7 h8 h9 d r hd ih =>
    simp [quoteJSONChars_cons c, h1, h2, h3, h4, h5, h6, h7, h8, h9, hd, decodeChars_unicodeEscape, ih, pushUnit]
  | case13 c r h1 h2 h3 h4 h5 h6 h7 h8 h9 h10 ih =>
    simp [quoteJSONChars_cons, h1, h2, h3, h4, h5, h6, h7, h8, h9, h10, decodeChars_unicodeEscape, ih, pushUnit]
  | case14 c r h1 h2 h3 h4 h5 h6 h7 h8 h9 h10 ih =>
    simp [quoteJSONChars_cons, h1, h2, h3, h4, h5, h6, h7, h8, h9, h10, decodeChars_cons, ih, pushUnit]


theorem skipWhitespace_cons (c : CodeUnit) (rest : JSString) (h : isJSONWhitespace c = false) :
    skipWhitespace (c :: rest) = c :: rest := by
  simp [skipWhitespace, h]

theorem quoteJSONString_append (s rest : JSString) :
    quoteJSONString s ++ rest = 0x22 :: (quoteJSONChars s ++ 0x22 :: rest) := by
  simp [quoteJSONString]

theorem decodeValue_string (n : Nat) (s rest : JSString) :
    decodeValue (n + 1) (quoteJSONString s ++ rest) = some (.str s, rest) := by
  rw [quoteJSONString_append, decodeValue, skipWhitespace_cons _ _ (by decide)]
  simp [decodeChars_quoteJSONChars]

theorem decodeValue_null (n : Nat) (rest : JSString) :
    decodeValue (n + 1) (JSON.stringify .null ++ rest) = some (.null, rest) := by
  have h : JSON.stringify .null ++ rest = 0x6E :: 0x75 :: 0x6C :: 0x6C :: rest := rfl
  rw [h, decodeValue, skipWhitespace_cons _ _ (by decide)]
  have h2 : JSString.ofString "ull" = [0x75, 0x6C, 0x6C] := by decide
  simp [h2, expect]
  decide

theorem decodeValue_singleton (n : Nat) (s rest : JSString) :
    decodeValue (n + 3) (JSON.stringify (.arr [.str s]) ++ rest) = some (.arr [.str s], rest) := by
  have h : JSON.stringify (.arr [.str s]) ++ rest
      = 0x5B :: (quoteJSONString s ++ 0x5D :: rest) := by
    simp [JSON.stringify, JSON.stringifyElements]
  rw [h, decodeValue, skipWhitespace_cons _ _ (by decide)]
  have h2 : skipWhitespace (quoteJSONString s ++ 0x5D :: rest)
      = 0x22 :: (quoteJSONChars s ++ 0x22 :: 0x5D :: rest) := by
    rw [quoteJSONString_append, skipWhitespace_cons _ _ (by decide)]
  simp only [h2]
  rw [← quoteJSONString_append, decodeElements, decodeValue_string]
  simp only [skipWhitespace_cons _ _ (by decide : isJSONWhitespace 0x5D = false)]
  simp


theorem stringify_shortenRequest (link : JSString) (shortcuts : JSONValue) (rest : JSString) :
    JSON.stringify (shortenRequest link shortcuts) ++ rest =
      0x7B :: (quoteJSONString (JSString.ofString "url") ++ 0x3A :: (quoteJSONString link ++
        0x2C :: (quoteJSONString (JSString.ofString "shortcuts") ++
          0x3A :: (JSON.stringify shortcuts ++ 0x7D :: rest)))) := by
  simp [shortenRequest, JSON.stringify, JSON.stringifyMembers]

theorem decodeMembers_last (n : Nat) (k : JSString) (v : JSONValue) (rest : JSString)
    (hv : ∀ r, decodeValue n (JSON.stringify v ++ r) = some (v, r)) :
    decodeMembers (n + 1) (quoteJSONString k ++ 0x3A :: (JSON.stringify v ++ 0x7D :: rest))
      = some ([(k, v)], rest) := by
  rw [quoteJSONString_append, decodeMembers, skipWhitespace_cons _ _ (by decide)]
  simp only [decodeChars_quoteJSONChars, skipWhitespace_cons _ _ (by decide : isJSONWhitespace 0x3A = false), hv,
    skipWhitespace_cons _ _ (by decide : isJSONWhitespace 0x7D = false)]
  simp

theorem decodeMembers_more (n : Nat) (k : JSString) (v : JSONValue) (more : JSString)
    (hv : ∀ r, decodeValue n (JSON.stringify v ++ r) = some (v, r)) :
    decodeMembers (n + 1) (quoteJSONString k ++ 0x3A :: (JSON.stringify v ++ 0x2C :: more))
      = (decodeMembers n more).map fun p => ((k, v) :: p.1, p.2) := by
  rw [quoteJSONString_append, decodeMembers, skipWhitespace_cons _ _ (by decide)]
  simp only [decodeChars_quoteJSONChars, skipWhitespace_cons _ _ (by decide : isJSONWhitespace 0x3A = false), hv,
    skipWhitespace_cons _ _ (by decide : isJSONWhitespace 0x2C = false)]
  simp

theorem decodeValue_shortenRequest (n : Nat) (link : JSString) (shortcuts : JSONValue)
    (hv : ∀ r, decodeValue (n + 1) (JSON.stringify shortcuts ++ r) = some (shortcuts, r))
    (rest : JSString) :
    decodeValue (n + 4) (JSON.stringify (shortenRequest link shortcuts) ++ rest)
      = some (shortenRequest link shortcuts, rest) := by
  rw [stringify_shortenRequest, decodeValue, skipWhitespace_cons _ _ (by decide)]
  have h2 : ∀ t, skipWhitespace (quoteJSONString (JSString.ofString "url") ++ t)
      = 0x22 :: (quoteJSONChars (JSString.ofString "url") ++ 0x22 :: t) := by
    intro t
    rw [quoteJSONString_append, skipWhitespace_cons _ _ (by decide)]
  simp only [h2]
  rw [← quoteJSONString_append]
  have hstr : ∀ r, decodeValue (n + 2) (JSON.stringify (.str link) ++ r) = some (.str link, r) :=
    fun r => decodeValue_string (n + 1) link r
  have e1 := decodeMembers_more (n + 2) (JSString.ofString "url") (.str link)
    (quoteJSONString (JSString.ofString "shortcuts") ++
          0x3A :: (JSON.stringify shortcuts ++ 0x7D :: rest)) hstr
  have e2 := decodeMembers_last (n + 1) (JSString.ofString "shortcuts") shortcuts rest hv
  simp only [JSON.stringify] at e1
  rw [e1, e2]
  simp [shortenRequest]


/-! ## What the listener does, case by case -/

theorem decodeJSON_shortenRequest (link : JSString) (shortcuts : JSONValue)
    (hv : ∀ n r, decodeValue (n + 3) (JSON.stringify shortcuts ++ r) = some (shortcuts, r)) :
    decodeJSON (JSON.stringify (shortenRequest link shortcuts))
      = some (shortenRequest link shortcuts) := by
  have hlen : 2 ≤ (JSON.stringify (shortenRequest link shortcuts)).length := by
    have h := congrArg List.length (stringify_shortenRequest link shortcuts [])
    simp only [List.append_nil, List.length_cons, List.length_append, quoteJSONString] at h
    omega
  obtain ⟨n, hn⟩ : ∃ n, 2 * (JSON.stringify (shortenRequest link shortcuts)).length + 2
      = (n + 2) + 4 := ⟨2 * (JSON.stringify (shortenRequest link shortcuts)).length - 4, by omega⟩
  have h := decodeValue_shortenRequest (n + 2) link shortcuts (fun r => hv n r) []
  rw [List.append_nil] at h
  simp [decodeJSON, hn, h, skipWhitespace]

theorem decodeJSON_theRequest (page : Page) :
    decodeJSON (theRequest page).body = some (shortenRequest (trim page.linkInput)
      (if trim page.shortlinkInput ≠ [] then .arr [.str (trim page.shortlinkInput)] else .null)) := by
  by_cases h : trim page.shortlinkInput = []
  · simp only [theRequest, h, ne_eq, not_true_eq_false, if_false]
    exact decodeJSON_shortenRequest _ _ (fun n r => decodeValue_null (n + 2) r)
  · simp only [theRequest, h, ne_eq, not_false_eq_true, if_true]
    exact decodeJSON_shortenRequest _ _ (fun n r => decodeValue_singleton n _ r)

theorem field_url (link : JSString) (shortcuts : JSONValue) :
    (shortenRequest link shortcuts).field (JSString.ofString "url") = some (.str link) := by
  simp [shortenRequest, JSONValue.field]

theorem field_shortcuts (link : JSString) (shortcuts : JSONValue) :
    (shortenRequest link shortcuts).field (JSString.ofString "shortcuts") = some shortcuts := by
  have h : JSString.ofString "url" ≠ JSString.ofString "shortcuts" := by decide
  simp [shortenRequest, JSONValue.field, List.find?, h]

theorem submitHandler_blank (page : Page) (h : trim page.linkInput = []) :
    submitHandler page = ⟨[.preventDefault, .getValue "link-input", .getValue "shortlink-input",
      .alert "Please enter a URL to shorten."], .ok ()⟩ := by
  simp [submitHandler, bind, pure, getValue, preventDefault, alert, h]

theorem submitHandler_ok (page : Page) (h : trim page.linkInput ≠ []) (r : Response)
    (hE : page.endpoint (theRequest page) = .resolved r) (hr : r.ok = true) :
    submitHandler page = ⟨[.preventDefault, .getValue "link-input", .getValue "shortlink-input",
      .fetch (theRequest page), .reload], .ok ()⟩ := by
  simp only [theRequest, ne_eq, ite_not] at hE
  simp [submitHandler, bind, pure, getValue, preventDefault, h, tryCatch, tryCatchThe,
    MonadExcept.tryCatch, fetch, hE, hr, reload, theRequest]

theorem submitHandler_notOk (page : Page) (h : trim page.linkInput ≠ []) (r : Response)
    (hE : page.endpoint (theRequest page) = .resolved r) (hr : r.ok = false) :
    submitHandler page = ⟨[.preventDefault, .getValue "link-input", .getValue "shortlink-input",
      .fetch (theRequest page), .consoleError "Error:" (JSError.Error "Failed to shorten URL"),
      .alert "An error occurred while shortening the URL. Please try again."], .ok ()⟩ := by
  simp only [theRequest, ne_eq, ite_not] at hE
  simp [submitHandler, bind, pure, getValue, preventDefault, alert, h, tryCatch, tryCatchThe,
    MonadExcept.tryCatch, throw, throwThe, MonadExcept.throw, fetch, hE, hr, theRequest,
    consoleError]

theorem submitHandler_rejected (page : Page) (h : trim page.linkInput ≠ []) (e : JSError)
    (hE : page.endpoint (theRequest page) = .rejected e) :
    submitHandler page = ⟨[.preventDefault, .getValue "link-input", .getValue "shortlink-input",
      .fetch (theRequest page), .consoleError "Error:" e,
      .alert "An error occurred while shortening the URL. Please try again."], .ok ()⟩ := by
  simp only [theRequest, ne_eq, ite_not] at hE
  simp [submitHandler, bind, pure, getValue, preventDefault, alert, h, tryCatch, tryCatchThe,
    MonadExcept.tryCatch, fetch, hE, theRequest, consoleError]

theorem requests_submitHandler (page : Page) (h : trim page.linkInput ≠ []) :
    requests (submitHandler page).actions = [theRequest page] := by
  cases hE : page.endpoint (theRequest page) with
  | resolved r =>
    cases hr : r.ok with
    | true => rw [submitHandler_ok page h r hE hr]; rfl
    | false => rw [submitHandler_notOk page h r hE hr]; rfl
  | rejected e => rw [submitHandler_rejected page h e hE]; rfl

theorem submitHandler_cases (page : Page) :
    (trim page.linkInput = [] ∧ (submitHandler page).actions =
      [.preventDefault, .getValue "link-input", .getValue "shortlink-input",
        .alert "Please enter a URL to shorten."]) ∨
    (trim page.linkInput ≠ [] ∧ (submitHandler page).actions =
      [.preventDefault, .getValue "link-input", .getValue "shortlink-input",
        .fetch (theRequest page), .reload]) ∨
    (trim page.linkInput ≠ [] ∧ ∃ e, (submitHandler page).actions =
      [.preventDefault, .getValue "link-input", .getValue "shortlink-input",
        .fetch (theRequest page), .consoleError "Error:" e,
        .alert "An error occurred while shortening the URL. Please try again."]) := by
  by_cases h : trim page.linkInput = []
  · exact Or.inl ⟨h, by rw [submitHandler_blank page h]⟩
  · cases hE : page.endpoint (theRequest page) with
    | resolved r =>
      cases hr : r.ok with
      | true => exact Or.inr (Or.inl ⟨h, by rw [submitHandler_ok page h r hE hr]⟩)
      | false => exact Or.inr (Or.inr ⟨h, _, by rw [submitHandler_notOk page h r hE hr]⟩)
    | rejected e => exact Or.inr (Or.inr ⟨h, e, by rw [submitHandler_rejected page h e hE]⟩)

/-! ## The claims -/

/-- C1: when the trimmed link and the trimmed shortlink are both non-empty, the
listener sends exactly one request, and the `shortcuts` field read from its JSON
body is the array whose single element is the trimmed shortlink. -/
theorem shortcuts_is_singleton_of_trimmed_shortlink (page : Page)
    (hlink : trim page.linkInput ≠ []) (hshort : trim page.shortlinkInput ≠ []) :
    requests (submitHandler page).actions = [theRequest page] ∧
    (theRequest page).body = JSON.stringify (shortenRequest (trim page.linkInput)
      (.arr [.str (trim page.shortlinkInput)])) ∧
    (decodeJSON (theRequest page).body).bind (JSONValue.field (JSString.ofString "shortcuts"))
      = some (.arr [.str (trim page.shortlinkInput)]) := by
  refine ⟨requests_submitHandler page hlink, ?_, ?_⟩
  · simp [theRequest, hshort]
  · rw [decodeJSON_theRequest]
    simp [field_shortcuts, hshort]

theorem shortcuts_is_singleton_witness :
    trim (samplePage " https://example.com/a " " docs " (.resolved ⟨201⟩)).linkInput ≠ [] ∧
    trim (samplePage " https://example.com/a " " docs " (.resolved ⟨201⟩)).shortlinkInput ≠ [] ∧
    (decodeJSON (theRequest (samplePage " https://example.com/a " " docs "
        (.resolved ⟨201⟩))).body).bind (JSONValue.field (JSString.ofString "shortcuts"))
      = some (.arr [.str (JSString.ofString "docs")]) :=
  ⟨by decide, by decide,
    (shortcuts_is_singleton_of_trimmed_shortlink
      (samplePage " https://example.com/a " " docs " (.resolved ⟨201⟩))
      (by decide) (by decide)).2.2⟩

/-- C2: when the trimmed link is non-empty and the shortlink is empty or all white
space, the listener sends exactly one request, whose JSON body has the field
`shortcuts` present with the value null, not the array holding the empty string. -/
theorem shortcuts_is_null_of_blank_shortlink (page : Page)
    (hlink : trim page.linkInput ≠ [])
    (hshort : page.shortlinkInput.all isWhiteSpace = true) :
    requests (submitHandler page).actions = [theRequest page] ∧
    (theRequest page).body = JSON.stringify (shortenRequest (trim page.linkInput) .null) ∧
    (decodeJSON (theRequest page).body).bind (JSONValue.field (JSString.ofString "shortcuts"))
      = some .null ∧
    (decodeJSON (theRequest page).body).bind (JSONValue.field (JSString.ofString "shortcuts"))
      ≠ some (.arr [.str []]) := by
  have hs : trim page.shortlinkInput = [] := (trim_eq_nil_iff _).mpr (List.all_eq_true.mp hshort)
  have hd : (decodeJSON (theRequest page).body).bind
      (JSONValue.field (JSString.ofString "shortcuts")) = some .null := by
    rw [decodeJSON_theRequest]
    simp [field_shortcuts, hs]
  refine ⟨requests_submitHandler page hlink, ?_, hd, ?_⟩
  · simp [theRequest, hs]
  · rw [hd]
    simp

theorem shortcuts_is_null_witness :
    trim (samplePage "https://example.com/a" "   " (.resolved ⟨200⟩)).linkInput ≠ [] ∧
    (samplePage "https://example.com/a" "   " (.resolved ⟨200⟩)).shortlinkInput.all
      isWhiteSpace = true ∧
    (decodeJSON (theRequest (samplePage "https://example.com/a" "   "
        (.resolved ⟨200⟩))).body).bind (JSONValue.field (JSString.ofString "shortcuts"))
      = some .null :=
  ⟨by decide, by decide,
    (shortcuts_is_null_of_blank_shortlink
      (samplePage "https://example.com/a" "   " (.resolved ⟨200⟩))
      (by decide) (by decide)).2.2.1⟩

/-- C3: when the link is empty or all white space, whatever the shortlink, the
listener shows the alert "Please enter a URL to shorten." and stops: it issues no
request, does not reload, logs nothing and does not show the error alert. -/
theorem blank_link_only_alerts (page : Page)
    (hlink : page.linkInput.all isWhiteSpace = true) :
    (submitHandler page).actions =
      [.preventDefault, .getValue "link-input", .getValue "shortlink-input",
        .alert "Please enter a URL to shorten."] ∧
    (submitHandler page).result = .ok () ∧
    requests (submitHandler page).actions = [] ∧
    Action.reload ∉ (submitHandler page).actions ∧
    (∀ label e, Action.consoleError label e ∉ (submitHandler page).actions) ∧
    Action.alert "An error occurred while shortening the URL. Please try again."
      ∉ (submitHandler page).actions := by
  have h : trim page.linkInput = [] := (trim_eq_nil_iff _).mpr (List.all_eq_true.mp hlink)
  rw [submitHandler_blank page h]
  refine ⟨rfl, rfl, rfl, by simp, by simp, by decide⟩

theorem blank_link_only_alerts_witness :
    (samplePage "   " "docs" (.resolved ⟨200⟩)).linkInput.all isWhiteSpace = true ∧
    (submitHandler (samplePage "   " "docs" (.resolved ⟨200⟩))).actions =
      [.preventDefault, .getValue "link-input", .getValue "shortlink-input",
        .alert "Please enter a URL to shorten."] :=
  ⟨by decide, (blank_link_only_alerts (samplePage "   " "docs" (.resolved ⟨200⟩))
    (by decide)).1⟩

/-- C4: when the trimmed link is non-empty and the endpoint answers the request
with an ok status, the listener reloads the page exactly once, shows no alert and
logs no error. -/
theorem ok_response_reloads_once (page : Page) (hlink : trim page.linkInput ≠ [])
    (r : Response) (hresp : page.endpoint (theRequest page) = .resolved r)
    (hok : r.ok = true) :
    (submitHandler page).actions =
      [.preventDefault, .getValue "link-input", .getValue "shortlink-input",
        .fetch (theRequest page), .reload] ∧
    (submitHandler page).actions.count .reload = 1 ∧
    (∀ message, Action.alert message ∉ (submitHandler page).actions) ∧
    (∀ label e, Action.consoleError label e ∉ (submitHandler page).actions) := by
  rw [submitHandler_ok page hlink r hresp hok]
  refine ⟨rfl, by simp [List.count_cons], by simp, by simp⟩

theorem ok_response_reloads_once_witness :
    trim (samplePage "https://example.com/a" "" (.resolved ⟨204⟩)).linkInput ≠ [] ∧
    (samplePage "https://example.com/a" "" (.resolved ⟨204⟩)).endpoint
      (theRequest (samplePage "https://example.com/a" "" (.resolved ⟨204⟩))) = .resolved ⟨204⟩ ∧
    (⟨204⟩ : Response).ok = true ∧
    (submitHandler (samplePage "https://example.com/a" "" (.resolved ⟨204⟩))).actions.count
      .reload = 1 :=
  ⟨by decide, rfl, by decide,
    (ok_response_reloads_once (samplePage "https://example.com/a" "" (.resolved ⟨204⟩))
      (by decide) ⟨204⟩ rfl (by decide)).2.1⟩

/-- C5: when the trimmed link is non-empty and the endpoint answers the request
with a status that is not ok, the listener does not reload, logs the error whose
message is "Failed to shorten URL", and after that shows the alert "An error
occurred while shortening the URL. Please try again.". -/
theorem not_ok_response_logs_then_alerts (page : Page) (hlink : trim page.linkInput ≠ [])
    (r : Response) (hresp : page.endpoint (theRequest page) = .resolved r)
    (hok : r.ok = false) :
    (submitHandler page).actions =
      [.preventDefault, .getValue "link-input", .getValue "shortlink-input",
        .fetch (theRequest page),
        .consoleError "Error:" (JSError.Error "Failed to shorten URL"),
        .alert "An error occurred while shortening the URL. Please try again."] ∧
    (JSError.Error "Failed to shorten URL").message = "Failed to shorten URL" ∧
    Action.reload ∉ (submitHandler page).actions ∧
    (submitHandler page).actions.indexOf
        (.consoleError "Error:" (JSError.Error "Failed to shorten URL")) <
      (submitHandler page).actions.indexOf
        (.alert "An error occurred while shortening the URL. Please try again.") ∧
    (submitHandler page).actions.indexOf
        (.alert "An error occurred while shortening the URL. Please try again.") <
      (submitHandler page).actions.length := by
  rw [submitHandler_notOk page hlink r hresp hok]
  refine ⟨rfl, rfl, by simp, by simp [List.indexOf_cons, JSError.Error], by simp [List.indexOf_cons, JSError.Error]⟩

theorem not_ok_response_witness :
    trim (samplePage "https://example.com/a" "docs" (.resolved ⟨500⟩)).linkInput ≠ [] ∧
    (samplePage "https://example.com/a" "docs" (.resolved ⟨500⟩)).endpoint
      (theRequest (samplePage "https://example.com/a" "docs" (.resolved ⟨500⟩)))
        = .resolved ⟨500⟩ ∧
    (⟨500⟩ : Response).ok = false ∧
    Action.reload ∉ (submitHandler (samplePage "https://example.com/a" "docs"
      (.resolved ⟨500⟩))).actions :=
  ⟨by decide, rfl, by decide,
    (not_ok_response_logs_then_alerts
      (samplePage "https://example.com/a" "docs" (.resolved ⟨500⟩))
      (by decide) ⟨500⟩ rfl (by decide)).2.2.1⟩

/-- C6: when the trimmed link is non-empty and the network call rejects with an
error `e`, the listener behaves as it does on a response that is not ok: no
reload, the error is logged, and the same alert "An error occurred while
shortening the URL. Please try again." is shown.  The two traces are equal once
the error handed to `console.error` is taken to be `e`. -/
theorem rejected_fetch_behaves_as_not_ok (page : Page) (hlink : trim page.linkInput ≠ [])
    (e : JSError) (hrej : page.endpoint (theRequest page) = .rejected e)
    (r : Response) (hok : r.ok = false) :
    (submitHandler page).actions =
      (submitHandler ⟨page.linkInput, page.shortlinkInput, fun _ => .resolved r⟩).actions.map
        (Action.withError e) ∧
    (submitHandler page).result =
      (submitHandler ⟨page.linkInput, page.shortlinkInput, fun _ => .resolved r⟩).result ∧
    (submitHandler page).actions =
      [.preventDefault, .getValue "link-input", .getValue "shortlink-input",
        .fetch (theRequest page), .consoleError "Error:" e,
        .alert "An error occurred while shortening the URL. Please try again."] ∧
    Action.reload ∉ (submitHandler page).actions ∧
    Action.reload ∉
      (submitHandler ⟨page.linkInput, page.shortlinkInput, fun _ => .resolved r⟩).actions := by
  have h2 := submitHandler_notOk ⟨page.linkInput, page.shortlinkInput, fun _ => .resolved r⟩
    hlink r rfl hok
  have h3 : theRequest ⟨page.linkInput, page.shortlinkInput, fun _ => .resolved r⟩
      = theRequest page := rfl
  rw [h3] at h2
  rw [submitHandler_rejected page hlink e hrej, h2]
  refine ⟨rfl, rfl, rfl, by simp, by simp⟩

theorem rejected_fetch_witness :
    trim (samplePage "https://example.com/a" "docs"
      (.rejected ⟨"TypeError", "Failed to fetch"⟩)).linkInput ≠ [] ∧
    (samplePage "https://example.com/a" "docs"
      (.rejected ⟨"TypeError", "Failed to fetch"⟩)).endpoint
      (theRequest (samplePage "https://example.com/a" "docs"
        (.rejected ⟨"TypeError", "Failed to fetch"⟩)))
        = .rejected ⟨"TypeError", "Failed to fetch"⟩ ∧
    (⟨503⟩ : Response).ok = false ∧
    (submitHandler (samplePage "https://example.com/a" "docs"
      (.rejected ⟨"TypeError", "Failed to fetch"⟩))).actions =
      (submitHandler (samplePage "https://example.com/a" "docs"
        (.resolved ⟨503⟩))).actions.map
        (Action.withError ⟨"TypeError", "Failed to fetch"⟩) :=
  ⟨by decide, rfl, by decide,
    (rejected_fetch_behaves_as_not_ok
      (samplePage "https://example.com/a" "docs" (.rejected ⟨"TypeError", "Failed to fetch"⟩))
      (by decide) ⟨"TypeError", "Failed to fetch"⟩ rfl ⟨503⟩ (by decide)).1⟩

/-- C7: when the trimmed link is non-empty, the one request the listener issues is
a POST to "/api/link" with the header Content-Type: application/json, whose body
is `JSON.stringify` of the object with exactly the fields `url` (the trimmed
link) and `shortcuts`; decoding that body as JSON gives back this object. -/
theorem request_is_json_post (page : Page) (hlink : trim page.linkInput ≠ []) :
    requests (submitHandler page).actions =
      [⟨"/api/link", "POST", [("Content-Type", "application/json")],
        JSON.stringify (.obj [
          (JSString.ofString "url", .str (trim page.linkInput)),
          (JSString.ofString "shortcuts",
            if trim page.shortlinkInput ≠ [] then .arr [.str (trim page.shortlinkInput)]
            else .null)])⟩] ∧
    decodeJSON (JSON.stringify (.obj [
          (JSString.ofString "url", .str (trim page.linkInput)),
          (JSString.ofString "shortcuts",
            if trim page.shortlinkInput ≠ [] then .arr [.str (trim page.shortlinkInput)]
            else .null)])) =
      some (.obj [
          (JSString.ofString "url", .str (trim page.linkInput)),
          (JSString.ofString "shortcuts",
            if trim page.shortlinkInput ≠ [] then .arr [.str (trim page.shortlinkInput)]
            else .null)]) :=
  ⟨requests_submitHandler page hlink, decodeJSON_theRequest page⟩

theorem request_is_json_post_witness :
    trim (samplePage " a.io " " x " (.resolved ⟨200⟩)).linkInput ≠ [] ∧
    requests (submitHandler (samplePage " a.io " " x " (.resolved ⟨200⟩))).actions =
      [⟨"/api/link", "POST", [("Content-Type", "application/json")],
        -- the code units of the text  {"url":"a.io","shortcuts":["x"]}
        [123, 34, 117, 114, 108, 34, 58, 34, 97, 46, 105, 111,
          34, 44, 34, 115, 104, 111, 114, 116, 99, 117, 116, 115,
          34, 58, 91, 34, 120, 34, 93, 125]⟩] :=
  ⟨by decide,
    (request_is_json_post (samplePage " a.io " " x " (.resolved ⟨200⟩)) (by decide)).1⟩

/-- C8: on every invocation, whatever the inputs and however the endpoint answers,
the first action of the listener is `event.preventDefault()`; reading the
inputs, alerts and the network request all come after it. -/
theorem preventDefault_is_first (page : Page) :
    (submitHandler page).actions.head? = some .preventDefault ∧
    (submitHandler page).actions = .preventDefault :: (submitHandler page).actions.tail ∧
    (∀ id, Action.getValue id ∈ (submitHandler page).actions →
      Action.getValue id ∈ (submitHandler page).actions.tail) ∧
    (∀ message, Action.alert message ∈ (submitHandler page).actions →
      Action.alert message ∈ (submitHandler page).actions.tail) ∧
    (∀ req, Action.fetch req ∈ (submitHandler page).actions →
      Action.fetch req ∈ (submitHandler page).actions.tail) ∧
    Action.preventDefault ∉ (submitHandler page).actions.tail := by
  rcases submitHandler_cases page with ⟨_, h⟩ | ⟨_, h⟩ | ⟨_, e, h⟩ <;>
    · rw [h]
      simp

/-- C9: every request the listener issues carries in its body a `url` that is the
link input with leading and trailing white space removed; it is not empty, starts
and ends with a code unit that is not white space, and trimming it again leaves it
unchanged. -/
theorem sent_url_is_trimmed_and_nonempty (page : Page) (req : Request)
    (hsent : Action.fetch req ∈ (submitHandler page).actions) :
    (decodeJSON req.body).bind (JSONValue.field (JSString.ofString "url"))
      = some (.str (trim page.linkInput)) ∧
    trim page.linkInput ≠ [] ∧
    (∀ c, (trim page.linkInput).head? = some c → isWhiteSpace c = false) ∧
    (∀ c, (trim page.linkInput).getLast? = some c → isWhiteSpace c = false) ∧
    trim (trim page.linkInput) = trim page.linkInput ∧
    (∃ before after, page.linkInput = before ++ trim page.linkInput ++ after ∧
      before.all isWhiteSpace = true ∧ after.all isWhiteSpace = true) := by
  have hreq : req = theRequest page ∧ trim page.linkInput ≠ [] := by
    rcases submitHandler_cases page with ⟨_, h⟩ | ⟨hl, h⟩ | ⟨hl, e, h⟩
    · rw [h] at hsent
      simp at hsent
    · rw [h] at hsent
      simp at hsent
      exact ⟨hsent, hl⟩
    · rw [h] at hsent
      simp at hsent
      exact ⟨hsent, hl⟩
  obtain ⟨rfl, hl⟩ := hreq
  refine ⟨?_, hl, trim_head_not_whiteSpace _, trim_last_not_whiteSpace _, trim_trim _, ?_⟩
  · rw [decodeJSON_theRequest]
    simp [field_url]
  · refine ⟨_, _, trim_decompose page.linkInput, ?_, ?_⟩
    · exact List.all_eq_true.mpr fun c hc => List.mem_takeWhile_imp hc
    · exact List.all_eq_true.mpr fun c hc => List.mem_rtakeWhile_imp hc

theorem sent_url_is_trimmed_witness :
    Action.fetch (theRequest (samplePage "  https://example.com/a " "" (.resolved ⟨200⟩))) ∈
      (submitHandler (samplePage "  https://example.com/a " "" (.resolved ⟨200⟩))).actions ∧
    (decodeJSON (theRequest (samplePage "  https://example.com/a " ""
      (.resolved ⟨200⟩))).body).bind (JSONValue.field (JSString.ofString "url"))
      = some (.str (JSString.ofString "https://example.com/a")) :=
  ⟨by decide,
    (sent_url_is_trimmed_and_nonempty (samplePage "  https://example.com/a " "" (.resolved ⟨200⟩))
      _ (by decide)).1⟩

/-- C10: for every input and every way the endpoint settles, one invocation issues
at most one request and ends in exactly one of three outcomes, none of which
occurs together with another: a page reload; a diagnostic log directly followed by
the error alert; the validation alert.  The validation alert is shown exactly when
no request was issued. -/
theorem one_request_one_outcome (page : Page) :
    (requests (submitHandler page).actions).length ≤ 1 ∧
    (((submitHandler page).actions.getLast? = some .reload ∧
        (submitHandler page).actions.count .reload = 1 ∧
        ¬ReportsFailure (submitHandler page).actions ∧
        ¬ShowsValidation (submitHandler page).actions) ∨
      ((∃ e, [Action.consoleError "Error:" e,
            Action.alert "An error occurred while shortening the URL. Please try again."]
          <:+ (submitHandler page).actions) ∧
        ¬Reloads (submitHandler page).actions ∧
        ¬ShowsValidation (submitHandler page).actions) ∨
      ((submitHandler page).actions.getLast? = some (.alert "Please enter a URL to shorten.") ∧
        ¬Reloads (submitHandler page).actions ∧
        ¬ReportsFailure (submitHandler page).actions)) ∧
    (ShowsValidation (submitHandler page).actions ↔
      requests (submitHandler page).actions = []) := by
  rcases submitHandler_cases page with ⟨_, h⟩ | ⟨_, h⟩ | ⟨_, e, h⟩
  · rw [h]
    refine ⟨by simp [requests], Or.inr (Or.inr ⟨rfl, ?_, ?_⟩), ?_⟩
    · simp [Reloads]
    · simp only [ReportsFailure]
      rintro (⟨l, e, hm⟩ | hm)
      · simp at hm
      · revert hm; decide
    · simp [ShowsValidation, requests]
  · rw [h]
    refine ⟨by simp [requests], Or.inl ⟨rfl, by simp [List.count_cons], ?_, ?_⟩, ?_⟩
    · simp [ReportsFailure]
    · simp [ShowsValidation]
    · simp [ShowsValidation, requests]
  · rw [h]
    refine ⟨by simp [requests], Or.inr (Or.inl ⟨⟨e, ?_⟩, ?_, ?_⟩), ?_⟩
    · exact ⟨[.preventDefault, .getValue "link-input", .getValue "shortlink-input",
        .fetch (theRequest page)], rfl⟩
    · simp [Reloads]
    · simp [ShowsValidation]
    · simp [ShowsValidation, requests]

end Shorten
